import Mathlib

/-!
Verification of the goxsh command shell core (src/goxsh.py).

The development shallowly embeds the tokenizer (`Shell._tokenize_command`
together with the `_token_types` regex table, goxsh.py lines 154-212), the
command grammar parser (`Shell._parse_tokens`, lines 214-228), the command
registry and arity checking (`Shell._get_cmd_proc`, `Shell._get_proc_arity`,
`Shell._unknown`, lines 230-283), the per-line dispatch loop (`Shell.prompt`,
lines 285-330), the credential holder of the exchange client
(`Exchange.set_credentials` / `unset_credentials`, lines 43-51) and the
startup path (`main`, lines 478-492).

Strings are modelled as lists of characters; the Python regexes of
`_token_types` are deterministic on their inputs (each alternation is
mutually exclusive at every position), so each token class is embedded as a
function computing the length of the raw match at the head of the remaining
input, mirroring `pattern.match(remaining)`.
-/

namespace Goxsh

/-! ## Tokenizer (goxsh.py lines 154-212) -/

/-- ASCII subset of the characters matched by the regex class `\s`
(Python whitespace): space, tab, newline, vertical tab, form feed,
carriage return. -/
def isSpaceChar (c : Char) : Bool :=
  c = ' ' || c = '\t' || c = '\n' || c = '\x0b' || c = '\x0c' || c = '\r'

/-- Characters of the class `[\s\\"';#]` used by the naked-word rule
(goxsh.py line 158): whitespace, backslash, double quote, single quote,
semicolon, hash. -/
def specialNaked (c : Char) : Bool :=
  isSpaceChar c || c = '\\' || c = '"' || c = '\x27' || c = ';' || c = '#'

/-- Embedding of `collapse_escapes` (goxsh.py line 155):
`re.compile(r"\\(.)").sub("\g<1>", s)` replaces every backslash followed by
a non-newline character with that character, scanning left to right.  A
backslash followed by a newline, or a trailing lone backslash, is kept. -/
def collapse_escapes : List Char → List Char
  | [] => []
  | c :: rest =>
    if c = '\\' then
      match rest with
      | [] => ['\\']
      | d :: rest2 => if d = '\n' then '\\' :: '\n' :: collapse_escapes rest2
                      else d :: collapse_escapes rest2
    else c :: collapse_escapes rest

/-- Length of the match of the naked-word rule
`(?:\\[\s\\"';#]|[^\s\\"';#])+` (goxsh.py line 158) at the head of the
input; `0` means the rule does not match.  The two alternatives are
mutually exclusive (the first requires a leading backslash, the second
excludes it), so the greedy repetition is the deterministic maximal run. -/
def nakedLen : List Char → Nat
  | [] => 0
  | c :: rest =>
    if c = '\\' then
      match rest with
      | [] => 0
      | d :: rest2 => if specialNaked d then 2 + nakedLen rest2 else 0
    else if specialNaked c then 0 else 1 + nakedLen rest

/-- Length consumed by the lazy body-and-closing-quote part of a quoted
string rule `(?:\\[\\q]|[^\\])*?q` after the opening quote `q`
(goxsh.py lines 162 and 166).  The lazy repetition closes at the first
unescaped `q`; a backslash must be followed by `\` or `q`; reaching the
end of input without a closing quote is a failed match (`none`). -/
def quotedBodyLen (q : Char) : List Char → Option Nat
  | [] => none
  | c :: rest =>
    if c = q then some 1
    else if c = '\\' then
      match rest with
      | [] => none
      | d :: rest2 =>
        if d = '\\' || d = q then (quotedBodyLen q rest2).map (fun m => 2 + m)
        else none
    else (quotedBodyLen q rest).map (fun m => 1 + m)

/-- Length of the match of a quoted-string rule `q(?:\\[\\q]|[^\\])*?q`
(goxsh.py lines 162 and 166) at the head of the input. -/
def quotedLen (q : Char) : List Char → Option Nat
  | [] => none
  | c :: rest => if c = q then (quotedBodyLen q rest).map (fun m => 1 + m) else none

mutual

/-- Length of the match of the whitespace-and-comments rule `(?:\s|#.*)+`
(goxsh.py line 170) at the head of the input; `0` means no match.  A `#`
starts a comment running to the end of the line (`.*` does not cross a
newline); a newline after the comment is itself whitespace, consumed by
the next repetition. -/
def wsLen : List Char → Nat
  | [] => 0
  | c :: rest =>
    if isSpaceChar c then 1 + wsLen rest
    else if c = '#' then 1 + wsHash rest
    else 0

/-- Helper for `wsLen`: consuming the remainder of a `#` comment.  Every
character up to a newline belongs to the comment (`#.*`); at a newline the
repetition `(?:\s|#.*)+` resumes. -/
def wsHash : List Char → Nat
  | [] => 0
  | c :: rest => if c = '\n' then 1 + wsLen rest else 1 + wsHash rest

end

/-- One step of `Shell._tokenize_command` (goxsh.py lines 196-206): try the
five token classes of `_token_types` in order (naked word, double-quoted,
single-quoted, whitespace-and-comments, semicolon) against the remaining
input.  Returns the token yielded by the matching rule (`none` inside the
pair for the whitespace rule, which yields nothing) and the length of the
raw match, or `none` if no rule matches.  String tokens have their
surrounding quotes stripped and escapes collapsed, as the `sub` functions
of `_token_types` do. -/
def tokenStep (s : List Char) : Option (Option (List Char) × Nat) :=
  let n1 := nakedLen s
  if n1 ≠ 0 then some (some (collapse_escapes (s.take n1)), n1) else
  match quotedLen '"' s with
  | some n => some (some (collapse_escapes (((s.take n).drop 1).dropLast)), n)
  | none =>
  match quotedLen '\x27' s with
  | some n => some (some (collapse_escapes (((s.take n).drop 1).dropLast)), n)
  | none =>
  let n4 := wsLen s
  if n4 ≠ 0 then some (none, n4) else
  if s.head? = some ';' then some (some [';'], 1) else none

/-- Embedding of the loop of `Shell._tokenize_command` (goxsh.py lines
192-212).  The fuel argument bounds the number of iterations; since every
matching rule consumes at least one character (proved below), fuel
`length + 1` always suffices and the `none` (out of fuel) result is
unreachable.  The result collects the tokens yielded before either the end
of the line (second component `none`) or a position where no rule matches
(second component carries the unconsumed remainder, from which the syntax
error offset `len(line) - len(remaining)` is computed). -/
def tokenizeAux : Nat → List Char → Option (List (List Char) × Option (List Char))
  | 0, _ => none
  | _ + 1, [] => some ([], none)
  | fuel + 1, c :: cs =>
    match tokenStep (c :: cs) with
    | none => some ([], some (c :: cs))
    | some (tok, n) =>
      match tokenizeAux fuel ((c :: cs).drop n) with
      | none => none
      | some (toks, merr) => some (tok.toList ++ toks, merr)

/-- Tokens yielded by `Shell._tokenize_command` on a line together with the
remaining input at the first syntax error, if any. -/
def tokenizeRaw (cs : List Char) : List (List Char) × Option (List Char) :=
  (tokenizeAux (cs.length + 1) cs).getD ([], some cs)

/-- Message of a `TokenizationError` (goxsh.py lines 208-211): a caret
positioned under the offending column followed by the text
`Syntax error.`. -/
def tokenizationMessage (off : Nat) : String :=
  "  " ++ String.mk (List.replicate off ' ') ++ "^" ++ "\n" ++ "Syntax error."

/-- The token stream of a line as observed by a lazy consumer of
`Shell._tokenize_command`: the tokens yielded before the generator either
finishes or raises `TokenizationError`, the latter reported as the offset
`len(line) - len(remaining)` of the first unconsumed character. -/
def tokenizeStream (line : String) : List String × Option Nat :=
  let r := tokenizeRaw line.data
  (r.1.map (fun t => String.mk t), r.2.map (fun e => line.data.length - e.length))

/-- Eager view of `Shell._tokenize_command`: the full token list of the
line, or the offset of the syntax error.  No partial token list is
returned on failure. -/
def tokenize (line : String) : Except Nat (List String) :=
  match tokenizeStream line with
  | (toks, none) => .ok toks
  | (_, some off) => .error off

/-! ## Command grammar parser (goxsh.py lines 214-228) -/

/-- Embedding of the loop of `Shell._parse_tokens` (goxsh.py lines
214-228) with its mutable state made explicit: the pending command name
(`cmd`, initially unset) and the pending argument list (`args`, initially
empty).  A token equal to the string `;` with a pending name emits
`(name, args)` and resets both; with no pending name it is a no-op.  Any
other token becomes the command name if none is pending, else is appended
to the arguments.  The `flush` flag tells whether the token stream ended
normally (the generator then emits a still-pending command at end of
stream, goxsh.py lines 227-228) or was aborted by an exception raised by
the token source (the end-of-stream flush never runs). -/
def parseAux (flush : Bool) : Option String → List String → List String →
    List (String × List String)
  | cmd, args, [] =>
    match cmd with
    | some c => if flush then [(c, args)] else []
    | none => []
  | cmd, args, t :: rest =>
    if t = ";" then
      match cmd with
      | some c => (c, args) :: parseAux flush none [] rest
      | none => parseAux flush none args rest
    else
      match cmd with
      | none => parseAux flush (some t) args rest
      | some c => parseAux flush (some c) (args ++ [t]) rest

/-- `Shell._parse_tokens` on a complete token stream. -/
def parse_tokens (tokens : List String) : List (String × List String) :=
  parseAux true none [] tokens

/-- The commands emitted by `Shell._parse_tokens` before its token source
raises `TokenizationError`: only commands completed at a `;` boundary,
never the end-of-stream flush. -/
def parse_tokens_interrupted (tokens : List String) : List (String × List String) :=
  parseAux false none [] tokens

/-- Tokenizing and parsing one full line, as `list(self._parse_tokens(
self._tokenize_command(line)))` would when fully consumed. -/
def parse_line (line : String) : Except Nat (List (String × List String)) :=
  (tokenize line).map parse_tokens

/-! ## Command registry and arity (goxsh.py lines 230-283, 332-363, 402-469) -/

/-- The commands of a `MtGoxShell` instance discovered by
`Shell._get_cmd_proc` over the `__cmd_<name>__` attributes, paired with
the arity bounds `Shell._get_proc_arity` computes from each handler
signature: minimum = required parameters (excluding `self`), maximum =
total parameters, or `none` when the handler is variadic.  Handlers:
`exit()`, `help(command=None)`, `login(username="")`, `logout()`,
`balance()`, `buy(amount, price)`, `cancel(kind, order_id)`,
`orders(kind=None)`, `profit(price)`, `sell(amount, price)`, `ticker()`,
`withdraw(address, amount)`. -/
def registry : List (String × (Nat × Option Nat)) :=
  [ ("balance", (0, some 0)),
    ("buy", (2, some 2)),
    ("cancel", (2, some 2)),
    ("exit", (0, some 0)),
    ("help", (0, some 1)),
    ("login", (0, some 1)),
    ("logout", (0, some 0)),
    ("orders", (0, some 1)),
    ("profit", (1, some 1)),
    ("sell", (2, some 2)),
    ("ticker", (0, some 0)),
    ("withdraw", (2, some 2)) ]

/-- Resolution of a command name (`Shell._get_cmd_proc`, goxsh.py lines
230-231): an exact, case-sensitive attribute lookup of
`__cmd_<name>__`, returning the arity bounds of the handler if present. -/
def lookupArity (cmd : String) : Option (Nat × Option Nat) :=
  registry.lookup cmd

/-- The arity admission test of `Shell.prompt` (goxsh.py line 302):
`min_arity <= arg_count and (max_arity == None or arg_count <= max_arity)`. -/
def arityOk (minA : Nat) (maxA : Option Nat) (argCount : Nat) : Bool :=
  minA ≤ argCount && (match maxA with
                      | none => true
                      | some m => argCount ≤ m)

/-- The expected-range text of the arity error (goxsh.py lines 305-310):
`N` when the bounds coincide, `N+` when the maximum is unbounded,
`N-M` otherwise. -/
def arityText (minA : Nat) (maxA : Option Nat) : String :=
  match maxA with
  | none => toString minA ++ "+"
  | some m => if minA = m then toString minA
              else toString minA ++ "-" ++ toString m

/-- The full `ArityError` message of `Shell.prompt` (goxsh.py lines
311-312), pluralizing `argument` exactly when the range text differs from
`1`. -/
def arityErrorMessage (minA : Nat) (maxA : Option Nat) (argCount : Nat) : String :=
  let range := arityText minA maxA
  let argWord := "argument" ++ (if range = "1" then "" else "s")
  "Expected " ++ range ++ " " ++ argWord ++ ", got " ++ toString argCount ++ "."

/-- Message printed by the fallback handler `Shell._unknown` (goxsh.py
lines 280-283). -/
def unknownMessage (cmd : String) : String :=
  cmd ++ ": Unknown command."

/-! ## Dispatcher and per-line loop (goxsh.py lines 285-330) -/

/-- The exception kinds that can cross a handler invocation in
`Shell.prompt`, mirroring the `except` clauses of goxsh.py lines 313-330. -/
inductive ShellError where
  | exchangeError (message : String)
  | commandError (message : String)
  | arityError (message : String)
  | noCredentialsError
  | loginError
  | tokenizationError (offset : Nat)
  | keyboardInterrupt
  | eofError
  | other (message : String)
deriving DecidableEq, Repr

/-- Result of invoking one handler: the lines it printed, or the
exception it raised. -/
inductive CmdOutcome where
  | ok (printed : List String)
  | raise (e : ShellError)
deriving DecidableEq, Repr

/-- The per-command `except` clauses of `Shell.prompt` (goxsh.py lines
313-322): the five classified exception kinds are caught there and
reported with these messages; anything else escapes the per-command
boundary (`none`). -/
def classifiedMessage : ShellError → Option String
  | .exchangeError m => some ("Exchange error: " ++ m)
  | .commandError m => some m
  | .arityError m => some m
  | .noCredentialsError => some "No login credentials entered. Use the login command first."
  | .loginError => some "The exchange rejected the login credentials. Maybe you made a typo?"
  | _ => none

/-- Resolving and invoking one parsed command (goxsh.py lines 299-312):
look up the handler, substituting `Shell._unknown` (arity `(0, none)`,
prints `<cmd>: Unknown command.` and succeeds) when absent; check the
arity bounds and raise `ArityError` on violation, else invoke.  The
behavior of a registered handler is supplied by the environment `env`
(handlers perform input/output and network calls). -/
def execOutcome (env : String → List String → CmdOutcome)
    (cmd : String) (args : List String) : CmdOutcome :=
  match lookupArity cmd with
  | some (mn, mx) =>
    if arityOk mn mx args.length then env cmd args
    else .raise (.arityError (arityErrorMessage mn mx args.length))
  | none =>
    if arityOk 0 none args.length then .ok [unknownMessage cmd]
    else .raise (.arityError (arityErrorMessage 0 none args.length))

/-- The `for (cmd, args) in commands` loop of `Shell.prompt` (goxsh.py
lines 297-322): each command is executed in turn; a classified exception
is reported at the per-command boundary and the loop proceeds to the next
command; any other exception aborts the loop and escapes (second
component).  Returns the printed lines and the escaping exception, if
any. -/
def runCommands (env : String → List String → CmdOutcome) :
    List (String × List String) → List String × Option ShellError
  | [] => ([], none)
  | (cmd, args) :: rest =>
    match execOutcome env cmd args with
    | .ok out =>
      let r := runCommands env rest
      (out ++ r.1, r.2)
    | .raise e =>
      match classifiedMessage e with
      | some msg =>
        let r := runCommands env rest
        (msg :: r.1, r.2)
      | none => ([], some e)

/-- Text used to model `traceback.print_exc()` (goxsh.py line 330). -/
def errorText : ShellError → String
  | .exchangeError m => m
  | .commandError m => m
  | .arityError m => m
  | .noCredentialsError => "NoCredentialsError"
  | .loginError => "LoginError"
  | .tokenizationError off => tokenizationMessage off
  | .keyboardInterrupt => "KeyboardInterrupt"
  | .eofError => "EOFError"
  | .other m => m

/-- Diagnostic printed for an exception reaching the per-line handler. -/
def tracebackMessage (e : ShellError) : String :=
  "Traceback (most recent call last): " ++ errorText e

/-- The per-line `except` clauses of `Shell.prompt` (goxsh.py lines
325-330) for an exception that escaped the per-command boundary and is
not `EOFError`: a `TokenizationError` is printed as its message, a
`KeyboardInterrupt` prints a blank line, and any other exception is
printed as a full traceback. -/
def outerMessage : ShellError → String
  | .tokenizationError off => tokenizationMessage off
  | .keyboardInterrupt => ""
  | e => tracebackMessage e

/-- Processing of one already-read input line by `Shell.prompt` (goxsh.py
lines 296-330).  Tokenization and parsing are lazy generators consumed by
the command loop, so the commands that execute are those parsed from the
tokens yielded before any tokenization error; the `TokenizationError`
itself surfaces when the loop asks for the next command and is caught at
the per-line boundary (goxsh.py line 325).  An unclassified exception from
a command aborts the loop first, in which case the generator is never
resumed.  Returns the printed lines and whether `EOFError` escaped
(terminating the read-eval-print loop). -/
def promptLine (env : String → List String → CmdOutcome) (line : String) :
    List String × Bool :=
  let ts := tokenizeStream line
  let cmds :=
    match ts.2 with
    | none => parse_tokens ts.1
    | some _ => parse_tokens_interrupted ts.1
  let r := runCommands env cmds
  match r.2, ts.2 with
  | some ShellError.eofError, _ => (r.1, true)
  | some e, _ => (r.1 ++ [outerMessage e], false)
  | none, some off => (r.1 ++ [tokenizationMessage off], false)
  | none, none => (r.1, false)

/-- Environment in which every handler succeeds and prints a line naming
the command it ran. -/
def envEcho : String → List String → CmdOutcome :=
  fun cmd _ => .ok ["ran " ++ cmd]

/-- Environment in which the `ticker` handler raises an exception outside
the classified taxonomy and every other handler succeeds. -/
def envBoom : String → List String → CmdOutcome :=
  fun cmd _ =>
    if cmd = "ticker" then .raise (.other "boom")
    else .ok ["ran " ++ cmd]

/-- Environment in which every handler raises `CommandError`. -/
def envCmdFail : String → List String → CmdOutcome :=
  fun _ _ => .raise (.commandError "bad input")

/-! ## Exchange client credentials (goxsh.py lines 26-51) -/

/-- The state of an `Exchange` relevant to the credential lifecycle
(goxsh.py lines 26-51): the user agent passed to `__init__` and the
`__credentials` holder, `none` when logged out. -/
structure Exchange where
  user_agent : String
  credentials : Option (String × String)
deriving DecidableEq, Repr

/-- `Exchange.__init__` (goxsh.py lines 27-32): calls
`unset_credentials`, so the holder starts empty. -/
def Exchange.init (ua : String) : Exchange :=
  { user_agent := ua, credentials := none }

/-- `Exchange.set_credentials` (goxsh.py lines 43-48): raises
`ValueError` on an empty username or an empty password, before any state
change; otherwise stores the pair. -/
def Exchange.set_credentials (ex : Exchange) (username password : String) :
    Except String Exchange :=
  if username.length = 0 then .error "Empty username."
  else if password.length = 0 then .error "Empty password."
  else .ok { ex with credentials := some (username, password) }

/-- `Exchange.unset_credentials` (goxsh.py lines 50-51). -/
def Exchange.unset_credentials (ex : Exchange) : Exchange :=
  { ex with credentials := none }

/-- `Exchange.have_credentials` (goxsh.py lines 40-41). -/
def Exchange.have_credentials (ex : Exchange) : Bool :=
  ex.credentials.isSome

/-- `Exchange.get_username` (goxsh.py lines 37-38). -/
def Exchange.get_username (ex : Exchange) : Option String :=
  ex.credentials.map Prod.fst

/-- The credential invariant of the specification: whenever credentials
are present, both fields are non-empty. -/
def credentialsWellFormed (ex : Exchange) : Prop :=
  ∀ u p, ex.credentials = some (u, p) → u.length ≠ 0 ∧ p.length ≠ 0

/-! ## Startup path (goxsh.py lines 478-492) -/

/-- Observable outcome of `main`: either it crashes before printing the
welcome banner, or it prints the banner and enters the prompt loop. -/
inductive MainResult where
  | crashedBeforeBanner (errorMessage : String)
  | printedBanner (banner : List String)
deriving DecidableEq, Repr

/-- The `shell_map` dict built by `main` (goxsh.py lines 482-484), keyed
by each shell short name. -/
def shell_map : List (String × String) :=
  [("mtgox", "MtGoxShell"), ("exchb", "ExchangeBitcoinsShell")]

/-- Models Python call semantics for a dict value: a dict does not
implement `__call__`, so `shell_map(u"mtgox")` raises `TypeError`
immediately. -/
def callDict (_dict : List (String × String)) (_argument : String) :
    Except String String :=
  .error "TypeError: \x27dict\x27 object is not callable"

/-- `main` (goxsh.py lines 478-492): after building `shell_map`, line 485
evaluates `sh = shell_map(u"mtgox")` before the banner prints on lines
486-487 and before any prompt iteration runs. -/
def main : MainResult :=
  match callDict shell_map "mtgox" with
  | .error e => .crashedBeforeBanner e
  | .ok _ => .printedBanner ["Welcome to goxsh!", "Type \x27help\x27 to get started."]

/-! ## Helper lemmas -/

/-- Induction on a list in steps of one and two elements, matching the
recursion pattern of the escape-aware token rules. -/
theorem twoStepInduction {P : List Char → Prop} (h0 : P []) (h1 : ∀ c, P [c])
    (h2 : ∀ c d rest, P rest → P (d :: rest) → P (c :: d :: rest)) :
    ∀ s, P s
  | [] => h0
  | [c] => h1 c
  | c :: d :: rest =>
    h2 c d rest (twoStepInduction h0 h1 h2 rest) (twoStepInduction h0 h1 h2 (d :: rest))

/-- The naked-word rule never matches more characters than remain. -/
theorem nakedLen_le : ∀ s, nakedLen s ≤ s.length := by
  apply twoStepInduction
  · simp [nakedLen]
  · intro c
    simp only [nakedLen, List.length_cons, List.length_nil]
    split_ifs <;> simp [nakedLen]
  · intro c d rest ih1 ih2
    simp only [List.length_cons] at ih2
    simp only [nakedLen, List.length_cons]
    split_ifs <;> omega

/-- A match of the quoted-string body consumes at least one and at most
all remaining characters. -/
theorem quotedBodyLen_bounds (q : Char) :
    ∀ s, ∀ n, quotedBodyLen q s = some n → 1 ≤ n ∧ n ≤ s.length := by
  apply twoStepInduction
  · intro n h
    simp [quotedBodyLen] at h
  · intro c n h
    simp only [quotedBodyLen] at h
    split_ifs at h
    · simp only [Option.some.injEq] at h
      simp only [List.length_cons, List.length_nil]
      omega
    · simp at h
  · intro c d rest ih1 ih2 n h
    simp only [quotedBodyLen] at h
    split_ifs at h
    · simp only [Option.some.injEq] at h
      simp only [List.length_cons]
      omega
    · rw [Option.map_eq_some'] at h
      obtain ⟨m, hm, hn⟩ := h
      have := ih1 m hm
      simp only [List.length_cons]
      omega
    · rw [Option.map_eq_some'] at h
      obtain ⟨m, hm, hn⟩ := h
      have := ih2 m hm
      simp only [List.length_cons] at this ⊢
      omega

/-- A match of a full quoted-string rule consumes at least one and at
most all remaining characters. -/
theorem quotedLen_bounds (q : Char) (s : List Char) (n : Nat)
    (h : quotedLen q s = some n) : 1 ≤ n ∧ n ≤ s.length := by
  cases s with
  | nil => simp [quotedLen] at h
  | cons c rest =>
    simp only [quotedLen] at h
    split_ifs at h
    rw [Option.map_eq_some'] at h
    obtain ⟨m, hm, hn⟩ := h
    have := quotedBodyLen_bounds q rest m hm
    simp only [List.length_cons]
    omega

/-- The whitespace-and-comments rule, in either of its states, never
consumes more characters than remain. -/
theorem ws_le : ∀ s : List Char, wsLen s ≤ s.length ∧ wsHash s ≤ s.length := by
  intro s
  induction s with
  | nil => simp [wsLen, wsHash]
  | cons c rest ih =>
    obtain ⟨ih1, ih2⟩ := ih
    constructor
    · simp only [wsLen, List.length_cons]
      split_ifs <;> omega
    · simp only [wsHash, List.length_cons]
      split_ifs <;> omega

/-- Every token rule that matches consumes at least one and at most all
remaining characters: one tokenizer step strictly shrinks the input. -/
theorem tokenStep_bounds (s : List Char) (tok : Option (List Char)) (n : Nat)
    (h : tokenStep s = some (tok, n)) : 1 ≤ n ∧ n ≤ s.length := by
  unfold tokenStep at h
  by_cases h1 : nakedLen s = 0
  · rw [if_neg (by simp [h1])] at h
    cases h2 : quotedLen '"' s with
    | some m =>
      rw [h2] at h
      simp only [Option.some.injEq, Prod.mk.injEq] at h
      obtain ⟨_, rfl⟩ := h
      exact quotedLen_bounds _ _ _ h2
    | none =>
      rw [h2] at h
      cases h3 : quotedLen '\x27' s with
      | some m =>
        rw [h3] at h
        simp only [Option.some.injEq, Prod.mk.injEq] at h
        obtain ⟨_, rfl⟩ := h
        exact quotedLen_bounds _ _ _ h3
      | none =>
        rw [h3] at h
        by_cases h4 : wsLen s = 0
        · rw [if_neg (by simp [h4])] at h
          split_ifs at h with h5
          simp only [Option.some.injEq, Prod.mk.injEq] at h
          obtain ⟨_, rfl⟩ := h
          cases s with
          | nil => simp [List.head?] at h5
          | cons c rest => simp
        · rw [if_pos (by simp [h4])] at h
          simp only [Option.some.injEq, Prod.mk.injEq] at h
          obtain ⟨_, rfl⟩ := h
          exact ⟨Nat.one_le_iff_ne_zero.mpr h4, (ws_le s).1⟩
  · rw [if_pos (by simp [h1])] at h
    simp only [Option.some.injEq, Prod.mk.injEq] at h
    obtain ⟨_, rfl⟩ := h
    exact ⟨Nat.one_le_iff_ne_zero.mpr h1, nakedLen_le s⟩

/-- With fuel exceeding the input length, the tokenizer loop always
completes. -/
theorem tokenizeAux_isSome :
    ∀ fuel s, s.length < fuel → (tokenizeAux fuel s).isSome = true := by
  intro fuel
  induction fuel with
  | zero => intro s h; omega
  | succ k ih =>
    intro s h
    cases s with
    | nil => simp [tokenizeAux]
    | cons c cs =>
      cases hstep : tokenStep (c :: cs) with
      | none => simp [tokenizeAux, hstep]
      | some p =>
        obtain ⟨tok, n⟩ := p
        have hb := tokenStep_bounds _ _ _ hstep
        have hlen : ((c :: cs).drop n).length < k := by
          rw [List.length_drop]
          simp only [List.length_cons] at h hb ⊢
          omega
        have hs := ih _ hlen
        cases hrec : tokenizeAux k ((c :: cs).drop n) with
        | none => rw [hrec] at hs; simp at hs
        | some r =>
          obtain ⟨toks, merr⟩ := r
          simp [tokenizeAux, hstep, hrec]


/-- When the tokenizer stops at a syntax error, the unconsumed remainder
is the suffix of the input starting at the first position where no token
rule matches, and that suffix is non-empty. -/
theorem tokenizeAux_error :
    ∀ fuel s toks e, tokenizeAux fuel s = some (toks, some e) →
      ∃ k, k ≤ s.length ∧ e = s.drop k ∧ e ≠ [] ∧ tokenStep e = none := by
  intro fuel
  induction fuel with
  | zero => intro s toks e h; simp [tokenizeAux] at h
  | succ m ih =>
    intro s toks e h
    cases s with
    | nil => simp [tokenizeAux] at h
    | cons c cs =>
      cases hstep : tokenStep (c :: cs) with
      | none =>
        simp only [tokenizeAux, hstep, Option.some.injEq, Prod.mk.injEq] at h
        obtain ⟨_, he⟩ := h
        subst he
        exact ⟨0, by simp, by simp, by simp, hstep⟩
      | some p =>
        obtain ⟨tok, n⟩ := p
        have hb := tokenStep_bounds _ _ _ hstep
        simp only [tokenizeAux, hstep] at h
        cases hrec : tokenizeAux m ((c :: cs).drop n) with
        | none => rw [hrec] at h; simp at h
        | some r =>
          obtain ⟨toks2, merr⟩ := r
          rw [hrec] at h
          simp only [Option.some.injEq, Prod.mk.injEq] at h
          obtain ⟨_, hm⟩ := h
          obtain ⟨k2, hk2, he, hne, hstep2⟩ :=
            ih ((c :: cs).drop n) toks2 e (by rw [hrec, hm])
          refine ⟨n + k2, ?_, ?_, hne, hstep2⟩
          · rw [List.length_drop] at hk2
            simp only [List.length_cons] at hb hk2 ⊢
            omega
          · rw [he, List.drop_drop, Nat.add_comm]


/-! ## Claims -/

/-- Claim C1, counterexample.  The claim states that no parsed command
from a line whose tokenization fails is ever executed.  On the line
`help; \` tokenization fails at offset 6 (the stray backslash), yet the
`help` command parsed before the error point executes (here in an
environment whose handlers print `ran <cmd>`), because `Shell.prompt`
consumes the tokenizer lazily; the syntax error only surfaces afterwards. -/
theorem lazy_tokenization_executes_prior_commands :
    tokenize "help; \\" = .error 6
    ∧ promptLine envEcho "help; \\" = (["ran help", tokenizationMessage 6], false) :=
  ⟨rfl, by decide⟩

/-- Claim C1 (amended): a tokenization error is caught at the per-line
boundary and reported, and the loop continues; the commands that execute
are exactly those parsed from the tokens yielded before the error (lazy
tokenization), never any from beyond the error point.  Stated for any
line whose tokenization fails at offset `off`, provided no executed
command raised an unclassified exception first. -/
theorem tokenization_error_reported_at_line_boundary
    (env : String → List String → CmdOutcome) (line : String)
    (toks : List String) (off : Nat)
    (h1 : tokenizeStream line = (toks, some off))
    (h2 : (runCommands env (parse_tokens_interrupted toks)).2 = none) :
    promptLine env line
      = ((runCommands env (parse_tokens_interrupted toks)).1
         ++ [tokenizationMessage off], false) := by
  simp [promptLine, h1, h2]

/-- Witness for C1 on the line `help; \` in the echoing environment. -/
theorem tokenization_error_reported_at_line_boundary_witness :
    promptLine envEcho "help; \\"
      = ((runCommands envEcho (parse_tokens_interrupted ["help", ";"])).1
         ++ [tokenizationMessage 6], false) :=
  tokenization_error_reported_at_line_boundary envEcho "help; \\" ["help", ";"] 6
    (by decide) (by decide)

/-- Claim C2, counterexample.  The claim states that every error raised
while executing one command, including unexpected failures outside the
classified taxonomy, is caught at the per-command boundary and never
prevents the remaining sibling commands from executing.  On the line
`ticker; help` in an environment where `ticker` raises an unclassified
exception, only the traceback is printed and `help` never runs (in the
same line under a non-raising environment both commands run); the loop
itself does continue. -/
theorem unexpected_error_aborts_sibling_commands :
    promptLine envBoom "ticker; help"
      = ([tracebackMessage (ShellError.other "boom")], false)
    ∧ "ran help" ∉ (promptLine envBoom "ticker; help").1
    ∧ promptLine envEcho "ticker; help" = (["ran ticker", "ran help"], false) :=
  ⟨by decide, by decide, by decide⟩

/-- Claim C2 (amended): an error of the classified taxonomy
(`ExchangeError`, `CommandError`, `ArityError`, `NoCredentialsError`,
`LoginError`) raised while executing one command is caught at the
per-command boundary: its message is printed and the remaining sibling
commands execute exactly as they would alone.  An unclassified failure
instead aborts the remaining siblings but is caught at the per-line
boundary: the loop terminates only when the escaping exception is
`EOFError`. -/
theorem classified_errors_caught_per_command :
    (∀ env cmd args rest e msg,
       execOutcome env cmd args = .raise e →
       classifiedMessage e = some msg →
       runCommands env ((cmd, args) :: rest)
         = (msg :: (runCommands env rest).1, (runCommands env rest).2))
    ∧ (∀ env line toks out err,
       tokenizeStream line = (toks, none) →
       runCommands env (parse_tokens toks) = (out, err) →
       err ≠ some ShellError.eofError →
       (promptLine env line).2 = false) := by
  constructor
  · intro env cmd args rest e msg h1 h2
    simp [runCommands, h1, h2]
  · intro env line toks out err h1 h2 h3
    simp only [promptLine, h1, h2]
    cases err with
    | none => simp
    | some e => cases e <;> simp_all

/-- Witness for C2: a `CommandError` from the first command is printed
and the second command still runs. -/
theorem classified_errors_caught_per_command_witness :
    runCommands envCmdFail [("help", []), ("logout", [])]
      = ("bad input" :: (runCommands envCmdFail [("logout", [])]).1,
         (runCommands envCmdFail [("logout", [])]).2) :=
  classified_errors_caught_per_command.1 envCmdFail "help" [] [("logout", [])]
    (ShellError.commandError "bad input") "bad input" (by decide) (by decide)

/-- Claim C3: evaluating the code on the failing input `echo \;`.  The
tokenizer collapses the escaped semicolon into the plain token `;`
(making it transparent to tokenization, as the escape rule intends), but
`Shell._parse_tokens` compares tokens to the string `;` with no tag
distinguishing literal text from the separator marker, so the line
parses as `("echo", [])` instead of the claimed `("echo", [";"])`. -/
theorem escaped_semicolon_still_splits_commands :
    tokenize "echo \\;" = .ok ["echo", ";"]
    ∧ parse_line "echo \\;" = .ok [("echo", [])]
    ∧ parse_line "echo \\;" ≠ .ok [("echo", [";"])] := by
  have h3 : parse_line "echo \\;" = Except.ok [("echo", [])] := rfl
  refine ⟨rfl, h3, ?_⟩
  rw [h3]
  simp

/-- Claim C4: dispatch invokes a resolved command exactly when the
argument count lies within the declared arity bounds (an unbounded
maximum is always satisfied on the upper side); on violation it raises an
`ArityError` whose message shows the expected range as `N`, `N+` or
`N-M`, pluralizes `argument` correctly, and reports the actual count —
in particular `(1, unbounded)` with 0 arguments reports
`Expected 1+ arguments, got 0.`. -/
theorem arity_check_and_messages :
    (∀ env cmd args mn mx, lookupArity cmd = some (mn, mx) →
       (arityOk mn mx args.length = true → execOutcome env cmd args = env cmd args)
       ∧ (arityOk mn mx args.length = false →
          execOutcome env cmd args
            = .raise (.arityError (arityErrorMessage mn mx args.length))))
    ∧ (∀ mn mx k, arityOk mn mx k = true ↔ (mn ≤ k ∧ ∀ m, mx = some m → k ≤ m))
    ∧ arityErrorMessage 1 none 0 = "Expected 1+ arguments, got 0."
    ∧ arityErrorMessage 2 (some 2) 1 = "Expected 2 arguments, got 1."
    ∧ arityErrorMessage 1 (some 1) 2 = "Expected 1 argument, got 2."
    ∧ arityErrorMessage 1 (some 3) 0 = "Expected 1-3 arguments, got 0." := by
  refine ⟨?_, ?_, rfl, rfl, rfl, rfl⟩
  · intro env cmd args mn mx h
    constructor
    · intro hok
      simp [execOutcome, h, hok]
    · intro hbad
      simp [execOutcome, h, hbad]
  · intro mn mx k
    cases mx <;> simp [arityOk]

/-- Witness for C4: `buy` declares arity `(2, 2)`; invoking it with one
argument raises the arity error. -/
theorem arity_check_and_messages_witness :
    execOutcome envEcho "buy" ["x"]
      = CmdOutcome.raise (ShellError.arityError (arityErrorMessage 2 (some 2) 1)) :=
  (arity_check_and_messages.1 envEcho "buy" ["x"] 2 (some 2) rfl).2 rfl

/-- Claim C5: the parser state machine.  A separator token with no
pending command name is a no-op; a separator with a pending name emits
`(name, args)` and resets both; any other token becomes the command name
if none is pending and is otherwise appended to the arguments; at end of
stream a still-pending name is emitted.  Consequently the line
`  ; ;  ` parses to zero commands with no error and `cmd1; cmd2 arg`
parses to exactly `("cmd1", [])` then `("cmd2", ["arg"])`. -/
theorem parser_state_machine :
    (∀ flush args ts,
       parseAux flush none args (";" :: ts) = parseAux flush none args ts)
    ∧ (∀ flush c args ts,
       parseAux flush (some c) args (";" :: ts) = (c, args) :: parseAux flush none [] ts)
    ∧ (∀ flush t args ts, t ≠ ";" →
       parseAux flush none args (t :: ts) = parseAux flush (some t) args ts)
    ∧ (∀ flush c t args ts, t ≠ ";" →
       parseAux flush (some c) args (t :: ts) = parseAux flush (some c) (args ++ [t]) ts)
    ∧ (∀ c args, parseAux true (some c) args [] = [(c, args)])
    ∧ (∀ args, parseAux true none args [] = [])
    ∧ parse_line "  ; ;  " = .ok []
    ∧ parse_line "cmd1; cmd2 arg" = .ok [("cmd1", []), ("cmd2", ["arg"])] := by
  refine ⟨?_, ?_, ?_, ?_, ?_, ?_, rfl, rfl⟩
  · intro flush args ts
    simp [parseAux]
  · intro flush c args ts
    simp [parseAux]
  · intro flush t args ts h
    simp [parseAux, h]
  · intro flush c t args ts h
    simp [parseAux, h]
  · intro c args
    simp [parseAux]
  · intro args
    simp [parseAux]

/-- Witness for C5: a non-separator token with no pending command becomes
the command name. -/
theorem parser_state_machine_witness :
    parseAux true none [] ["cmd1"] = parseAux true (some "cmd1") [] [] :=
  parser_state_machine.2.2.1 true "cmd1" [] [] (by decide)

/-- Claim C6: command resolution is an exact, case-sensitive lookup, and
every unresolved name dispatches to the fallback handler, which accepts
any argument count, prints `<cmd>: Unknown command.` and succeeds —
never an arity error, never a failure. -/
theorem unknown_command_fallback :
    lookupArity "help" = some (0, some 1)
    ∧ lookupArity "Help" = none
    ∧ lookupArity "HELP" = none
    ∧ (∀ env cmd args, lookupArity cmd = none →
       execOutcome env cmd args = .ok [unknownMessage cmd]) := by
  refine ⟨rfl, rfl, rfl, ?_⟩
  intro env cmd args h
  simp [execOutcome, h, arityOk]

/-- Witness for C6: an unregistered command invoked with three arguments
reports unknown and succeeds. -/
theorem unknown_command_fallback_witness :
    execOutcome envEcho "frobnicate" ["a", "b", "c"]
      = CmdOutcome.ok [unknownMessage "frobnicate"] :=
  unknown_command_fallback.2.2.2 envEcho "frobnicate" ["a", "b", "c"] rfl

/-- Claim C7: whenever tokenization of a line fails, the reported offset
is the position of the first unconsumed character — a position inside the
line at which no token rule matches — and no token list is returned. -/
theorem tokenization_failure_offset :
    (∀ line off, tokenize line = .error off →
       off < line.length
       ∧ line.data.drop off ≠ []
       ∧ tokenStep (line.data.drop off) = none
       ∧ ∀ toks, tokenize line ≠ .ok toks)
    ∧ tokenize "ab\\" = .error 2
    ∧ tokenize "say \"hi" = .error 4 := by
  refine ⟨?_, rfl, rfl⟩
  intro line off h
  have h0 := h
  have htot := tokenizeAux_isSome (line.data.length + 1) line.data (by omega)
  obtain ⟨r, hr⟩ := Option.isSome_iff_exists.mp htot
  obtain ⟨toks, merr⟩ := r
  have hraw : tokenizeRaw line.data = (toks, merr) := by
    unfold tokenizeRaw
    rw [hr]
    rfl
  unfold tokenize tokenizeStream at h
  rw [hraw] at h
  cases merr with
  | none => simp at h
  | some e =>
    simp only [Option.map_some'] at h
    simp at h
    obtain ⟨k, hk, he, hne, hstep⟩ := tokenizeAux_error _ _ _ _ hr
    have hel : e.length = line.data.length - k := by
      rw [he, List.length_drop]
    have hnel : 0 < e.length := List.length_pos.mpr hne
    have hll : line.length = line.data.length := rfl
    have hoff : off = k := by omega
    subst hoff
    refine ⟨by omega, by rw [← he]; exact hne, by rw [← he]; exact hstep, ?_⟩
    intro toks2 hcon
    rw [h0] at hcon
    simp at hcon


/-- Witness for C7: the line `ab\` (stray backslash at end of input)
fails at offset 2, the position of the backslash. -/
theorem tokenization_failure_offset_witness :
    2 < ("ab\\" : String).length
    ∧ ("ab\\" : String).data.drop 2 ≠ []
    ∧ tokenStep (("ab\\" : String).data.drop 2) = none
    ∧ ∀ toks, tokenize "ab\\" ≠ .ok toks :=
  tokenization_failure_offset.1 "ab\\" 2 rfl

/-- Claim C8: `set_credentials` fails with a validation error when the
username or the password is empty (the state-passing embedding returns no
new state on failure, so the stored credentials are unchanged), and
otherwise stores the pair; consequently the invariant that both fields
are non-empty whenever credentials are present is established by
construction and preserved by `set_credentials` and
`unset_credentials`. -/
theorem credentials_invariant :
    (∀ ex u p, (u.length = 0 ∨ p.length = 0) →
       ∃ msg, Exchange.set_credentials ex u p = .error msg)
    ∧ (∀ ex u p, u.length ≠ 0 → p.length ≠ 0 →
       Exchange.set_credentials ex u p
         = .ok { ex with credentials := some (u, p) })
    ∧ (∀ ua, credentialsWellFormed (Exchange.init ua))
    ∧ (∀ ex u p ex2, Exchange.set_credentials ex u p = .ok ex2 →
       credentialsWellFormed ex2)
    ∧ (∀ ex, credentialsWellFormed (Exchange.unset_credentials ex)) := by
  refine ⟨?_, ?_, ?_, ?_, ?_⟩
  · intro ex u p h
    rcases h with h | h
    · exact ⟨"Empty username.", by simp [Exchange.set_credentials, h]⟩
    · by_cases hu : u.length = 0
      · exact ⟨"Empty username.", by simp [Exchange.set_credentials, hu]⟩
      · exact ⟨"Empty password.", by simp [Exchange.set_credentials, hu, h]⟩
  · intro ex u p hu hp
    simp [Exchange.set_credentials, hu, hp]
  · intro ua u2 p2 h2
    simp [Exchange.init] at h2
  · intro ex u p ex2 h
    unfold Exchange.set_credentials at h
    split_ifs at h with h1 h2
    simp only [Except.ok.injEq] at h
    subst h
    intro u2 p2 hc
    simp only [Option.some.injEq, Prod.mk.injEq] at hc
    obtain ⟨hu2, hp2⟩ := hc
    subst hu2
    subst hp2
    exact ⟨h1, h2⟩
  · intro ex u2 p2 h2
    simp [Exchange.unset_credentials] at h2

/-- Witness for C8: setting an empty username on a fresh exchange fails. -/
theorem credentials_invariant_witness :
    ∃ msg, Exchange.set_credentials (Exchange.init "goxsh") "" "pw" = .error msg :=
  credentials_invariant.1 (Exchange.init "goxsh") "" "pw" (Or.inl rfl)

/-- Claim C9: the startup path calls the shell mapping as if it were a
function (`shell_map(u"mtgox")` on a dict, goxsh.py line 485), so `main`
fails with a `TypeError` before the welcome banner is printed and before
any prompt line is read. -/
theorem main_crashes_before_banner :
    main = MainResult.crashedBeforeBanner
      "TypeError: \x27dict\x27 object is not callable" := rfl

/-- Claim C10: tokenization terminates on every finite input line.  Every
token-class pattern that matches does so on a non-empty prefix of the
remaining input, so the remaining input strictly shrinks at each step and
with fuel exceeding the line length the loop always completes — yielding
a finite token sequence or failing with a tokenization error, never
looping forever. -/
theorem tokenizer_terminates :
    (∀ s, nakedLen s ≤ s.length)
    ∧ (∀ q s n, quotedLen q s = some n → 1 ≤ n ∧ n ≤ s.length)
    ∧ (∀ s, wsLen s ≤ s.length)
    ∧ (∀ s tok n, tokenStep s = some (tok, n) → 1 ≤ n ∧ n ≤ s.length)
    ∧ (∀ fuel s, s.length < fuel → (tokenizeAux fuel s).isSome = true) :=
  ⟨nakedLen_le, quotedLen_bounds, fun s => (ws_le s).1, tokenStep_bounds,
    tokenizeAux_isSome⟩

/-- Witness for C10: the tokenizer loop completes on a concrete input
with fuel exceeding its length. -/
theorem tokenizer_terminates_witness :
    (tokenizeAux 4 ("abc" : String).data).isSome = true :=
  tokenizer_terminates.2.2.2.2 4 ("abc" : String).data (by decide)

end Goxsh
